import Mathlib

/-!
Formal model of the payvast chatbot knowledge-base server.

The server keeps question/answer entries in a relational table, retrieves the
entries most similar to a user question, feeds them as grounding context to a
generative model, and maintains like/dislike/hit counters per entry.  The
definitions below are a shallow embedding of the most refined revision of
`src/server.ts` (the revision whose retriever ranks by trigram similarity,
then net likes, then hits) together with the text normalizer of
`src/scripts/seed.ts`.  JavaScript strings are modelled as lists of
characters; the SQL store is modelled as a list of rows, and each SQL
statement issued by a handler is given its documented semantics over that
list.  External collaborators (the trigram `similarity` operator, the
Unicode NFC normalization, the generative model, and the possibility of a
store failure) are parameters of the definitions.
-/

/-- JavaScript strings, modelled as lists of characters. -/
abbrev Str := List Char

/-- A JavaScript value, as far as truthiness and the request bodies are
concerned. -/
inductive JsVal where
  | undef
  | jsNull
  | jsBool (b : Bool)
  | jsStr (s : Str)
  | jsNum (n : Int)
deriving DecidableEq, Repr

/-- JavaScript truthiness: `undefined`, `null`, `false`, the empty string and
`0` are falsy; everything else modelled here is truthy. -/
def truthy : JsVal → Bool
  | .undef => false
  | .jsNull => false
  | .jsBool b => b
  | .jsStr s => !s.isEmpty
  | .jsNum n => n != 0

/-- Truthiness of an optional string field of a request body: absent
(`undefined`/`null`) and the empty string are falsy. -/
def truthyS : Option Str → Bool
  | none => false
  | some s => !s.isEmpty

/-- A row of the `knowledge_base` table, following `types.ts` and the
`CREATE TABLE` statement of the seed script (the counters are SQL `INT`
columns with `DEFAULT 0`; the attachment URLs are nullable `TEXT`). -/
structure KnowledgeEntry where
  id : Str
  question : Str
  answer : Str
  type : Str
  system : Str
  hasVideo : Bool
  hasDocument : Bool
  hasImage : Bool
  likes : Int
  dislikes : Int
  hits : Int
  videoUrl : Option Str
  documentUrl : Option Str
  imageUrl : Option Str
deriving DecidableEq, Repr

/-- Net feedback of an entry: `likes - dislikes`. -/
def netLikes (e : KnowledgeEntry) : Int := e.likes - e.dislikes

/-- The closed enumeration of entry types from `types.ts`
(`KnowledgeEntryType`): support, sales, general (as Persian strings). -/
def knowledgeEntryTypes : List Str :=
  [("پشتیبانی").data, ("فروش").data, ("عمومی").data]

/-! ### The text normalizer of `src/scripts/seed.ts` (`normalizePersian`) -/

/-- The character class of the JavaScript regular-expression `\s` (which is
also the character set stripped by `String.prototype.trim`): tab, line feed,
vertical tab, form feed, carriage return, space, no-break space, ogham space
mark, the en-quad..hair-space range, line separator, paragraph separator,
narrow no-break space, medium mathematical space, ideographic space, and the
byte-order mark.  Note that the zero-width non-joiner (U+200C) is *not* in
this set. -/
def isJsSpace (c : Char) : Bool :=
  let n := c.toNat
  n == 9 || n == 10 || n == 11 || n == 12 || n == 13 || n == 32 ||
  n == 160 || n == 5760 || (decide (8192 ≤ n) && decide (n ≤ 8202)) ||
  n == 8232 || n == 8233 || n == 8239 || n == 8287 || n == 12288 ||
  n == 65279

/-- `text.trimStart()`-part of `trim`: drop leading whitespace. -/
def jsTrimLeft (l : Str) : Str := l.dropWhile isJsSpace

/-- `text.trimEnd()`-part of `trim`: drop trailing whitespace. -/
def jsTrimRight (l : Str) : Str := ((l.reverse).dropWhile isJsSpace).reverse

/-- `text.trim()`: drop leading and trailing whitespace. -/
def jsTrim (l : Str) : Str := jsTrimRight (jsTrimLeft l)

/-- Worker for `replace(/\s+/g, ' ')`: the boolean records whether the
previous character was part of a whitespace run already replaced. -/
def collapseAux (inRun : Bool) : Str → Str
  | [] => []
  | c :: rest =>
    if isJsSpace c then
      if inRun then collapseAux true rest
      else ' ' :: collapseAux true rest
    else c :: collapseAux false rest

/-- `text.replace(/\s+/g, ' ')`: collapse every maximal whitespace run into a
single space. -/
def collapseWS (l : Str) : Str := collapseAux false l

/-- `replace(/ي/g, 'ی')`: Arabic Yeh to Persian Yeh, characterwise. -/
def replYeh (c : Char) : Char := if c = 'ي' then 'ی' else c

/-- `replace(/ك/g, 'ک')`: Arabic Kaf to Persian Kaf, characterwise. -/
def replKaf (c : Char) : Char := if c = 'ك' then 'ک' else c

/-- `replace(/‌/g, ' ')`: zero-width non-joiner to a literal space. -/
def replZwnj (c : Char) : Char := if c = '‌' then ' ' else c

/-- The portion of `normalizePersian` that follows the NFC step: the three
character replacements, whitespace collapsing, and trimming, in source
order. -/
def postRepl (l : Str) : Str :=
  jsTrim (collapseWS (((l.map replYeh).map replKaf).map replZwnj))

/-- `normalizePersian` from `src/scripts/seed.ts`.  `null`/`undefined` and
the empty string (all falsy) yield the empty string; otherwise the text is
NFC-normalized and then passed through `postRepl`.  The Unicode NFC
normalization performed by `String.prototype.normalize('NFC')` is an
external collaborator and is a parameter `nfc`. -/
def normalizePersian (nfc : Str → Str) : Option Str → Str
  | none => []
  | some t => if t = [] then [] else postRepl (nfc t)

/-! ### The context retriever (`findRelevantContext`, refined revision) -/

/-- The composite ordering of the retrieval query, read off the `ORDER BY`
clause: primary key trigram relevance (descending), secondary key net
feedback `likes - dislikes` (descending), tertiary key `hits` (descending).
`rankRel rel q a b` states that row `a` may come no later than row `b`. -/
def rankRel (rel : Str → Str → ℚ) (q : Str) (a b : KnowledgeEntry) : Prop :=
  rel b.question q < rel a.question q ∨
    (rel a.question q = rel b.question q ∧
      (netLikes b < netLikes a ∨ (netLikes b = netLikes a ∧ b.hits ≤ a.hits)))

instance (rel : Str → Str → ℚ) (q : Str) : DecidableRel (rankRel rel q) :=
  fun a b => by unfold rankRel; exact inferInstance

instance (rel : Str → Str → ℚ) (q : Str) :
    IsTotal KnowledgeEntry (rankRel rel q) where
  total a b := by
    unfold rankRel
    rcases lt_trichotomy (rel a.question q) (rel b.question q) with h | h | h
    · exact Or.inr (Or.inl h)
    · rcases lt_trichotomy (netLikes a) (netLikes b) with h2 | h2 | h2
      · exact Or.inr (Or.inr ⟨h.symm, Or.inl h2⟩)
      · rcases le_total b.hits a.hits with h3 | h3
        · exact Or.inl (Or.inr ⟨h, Or.inr ⟨h2.symm, h3⟩⟩)
        · exact Or.inr (Or.inr ⟨h.symm, Or.inr ⟨h2, h3⟩⟩)
      · exact Or.inl (Or.inr ⟨h, Or.inl h2⟩)
    · exact Or.inl (Or.inl h)

instance (rel : Str → Str → ℚ) (q : Str) :
    IsTrans KnowledgeEntry (rankRel rel q) where
  trans a b c hab hbc := by
    unfold rankRel at hab hbc ⊢
    rcases hab with hab | ⟨hab, hab2⟩
    · rcases hbc with hbc | ⟨hbc, _⟩
      · exact Or.inl (lt_trans hbc hab)
      · exact Or.inl (hbc ▸ hab)
    · rcases hbc with hbc | ⟨hbc, hbc2⟩
      · exact Or.inl (by rw [hab]; exact hbc)
      · refine Or.inr ⟨hab.trans hbc, ?_⟩
        rcases hab2 with h2 | ⟨h2, h3⟩
        · rcases hbc2 with h4 | ⟨h4, _⟩
          · exact Or.inl (by omega)
          · exact Or.inl (by omega)
        · rcases hbc2 with h4 | ⟨h4, h5⟩
          · exact Or.inl (by omega)
          · exact Or.inr ⟨by omega, by omega⟩

/-- The outcome of a retrieval: the returned rows, whether the store was
queried at all, and what was logged. -/
structure RetrievalOut where
  entries : List KnowledgeEntry
  storeAccessed : Bool
  log : List String
deriving DecidableEq, Repr

/-- `findRelevantContext` from the refined revision of `src/server.ts`.
An empty or whitespace-only question short-circuits to the empty list with
no store access.  Otherwise the single SQL query filters the table to rows
whose trigram similarity to the question exceeds `0.1`, orders them by
relevance, then net likes, then hits (all descending), and limits the result
to `maxResults` rows.  A store failure is caught locally: it is logged and
the empty list is returned.  The trigram `similarity` operator is the
parameter `rel`; a failing query is the flag `storeFails`. -/
def findRelevantContext (rel : Str → Str → ℚ) (store : List KnowledgeEntry)
    (storeFails : Bool) (userQuestion : Str) (maxResults : Nat := 3) :
    RetrievalOut :=
  if jsTrim userQuestion = [] then
    { entries := [], storeAccessed := false, log := [] }
  else if storeFails then
    { entries := [], storeAccessed := true,
      log := [("Error finding relevant context from DB:")] }
  else
    { entries :=
        (List.insertionSort (rankRel rel userQuestion)
            (store.filter
              (fun e => decide (mkRat 1 10 < rel e.question userQuestion)))).take
          maxResults,
      storeAccessed := true, log := [] }

/-! ### The HTTP handlers (refined revision of `src/server.ts`) -/

/-- A JSON response body. -/
inductive RespBody where
  | chatAnswer (answer : Str) (sources : List KnowledgeEntry)
  | entry (e : KnowledgeEntry)
  | entries (l : List KnowledgeEntry)
  | success
  | noContent
  | err (msg : String)
deriving DecidableEq, Repr

/-- An HTTP response: status code and JSON body. -/
structure HttpResponse where
  status : Nat
  body : RespBody
deriving DecidableEq, Repr

/-- The outcome of a CRUD handler: the response sent and the store as left
behind by the handler's SQL statements. -/
structure HandlerOut where
  response : HttpResponse
  store : List KnowledgeEntry
deriving DecidableEq, Repr

/-- The request body of the create and update endpoints, destructured as in
the source: four required text fields, three attachment flags (arbitrary
JavaScript values, coerced with `!!`), three optional attachment URLs. -/
structure EntryBody where
  question : Option Str
  answer : Option Str
  type : Option Str
  system : Option Str
  hasVideo : JsVal
  hasDocument : JsVal
  hasImage : JsVal
  videoUrl : Option Str
  documentUrl : Option Str
  imageUrl : Option Str
deriving DecidableEq, Repr

/-- The validation guard `!question || !answer || !type || !system`,
negated: all four required fields are present and non-empty. -/
def requiredOk (b : EntryBody) : Bool :=
  truthyS b.question && truthyS b.answer && truthyS b.type && truthyS b.system

/-- `${videoUrl || null}`: a falsy URL (absent or empty) is stored as SQL
`NULL`, a truthy one verbatim. -/
def orNull : Option Str → Option Str
  | none => none
  | some s => if s.isEmpty then none else some s

/-- The server-generated identifier: a `kb-` prefix plus `Date.now()`. -/
def kbId (now : Nat) : Str := ("kb-").data ++ (Nat.repr now).data

/-- The row the create endpoint inserts: content from the request body (the
flags coerced with `!!`, the URLs defaulted to `NULL` when falsy), the id
generated server-side, and the counter columns taking the schema defaults of
`0` (the `INSERT` does not list them). -/
def newEntry (now : Nat) (b : EntryBody) : KnowledgeEntry :=
  { id := kbId now,
    question := (b.question).getD [],
    answer := (b.answer).getD [],
    type := (b.type).getD [],
    system := (b.system).getD [],
    hasVideo := truthy b.hasVideo,
    hasDocument := truthy b.hasDocument,
    hasImage := truthy b.hasImage,
    likes := 0, dislikes := 0, hits := 0,
    videoUrl := orNull b.videoUrl,
    documentUrl := orNull b.documentUrl,
    imageUrl := orNull b.imageUrl }

/-- `POST /api/knowledge-base`: validate the four required fields (400 when
one is falsy), then insert `newEntry`, answering 201 with the returned
row. -/
def createHandler (now : Nat) (store : List KnowledgeEntry) (b : EntryBody)
    (dbFails : Bool) : HandlerOut :=
  if !requiredOk b then
    { response := { status := 400, body := .err ("Required fields are missing.") },
      store := store }
  else if dbFails then
    { response := { status := 500, body := .err ("Failed to create new entry.") },
      store := store }
  else
    { response := { status := 201, body := .entry (newEntry now b) },
      store := store ++ [newEntry now b] }

/-- The `SET` clause of the update statement: replace the content fields
(question, answer, type, system, attachment flags and URLs) and touch
nothing else. -/
def applyContent (b : EntryBody) (e : KnowledgeEntry) : KnowledgeEntry :=
  { e with
    question := (b.question).getD [],
    answer := (b.answer).getD [],
    type := (b.type).getD [],
    system := (b.system).getD [],
    hasVideo := truthy b.hasVideo,
    hasDocument := truthy b.hasDocument,
    hasImage := truthy b.hasImage,
    videoUrl := orNull b.videoUrl,
    documentUrl := orNull b.documentUrl,
    imageUrl := orNull b.imageUrl }

/-- `PUT /api/knowledge-base/:id`: validate, run the `UPDATE ... RETURNING *`
on the row with the given id, answer 404 when no row matched
(`rowCount === 0`), otherwise 200 with the updated row. -/
def updateHandler (id : Str) (store : List KnowledgeEntry) (b : EntryBody)
    (dbFails : Bool) : HandlerOut :=
  if !requiredOk b then
    { response := { status := 400, body := .err ("Required fields are missing.") },
      store := store }
  else if dbFails then
    { response := { status := 500, body := .err ("Failed to update entry.") },
      store := store }
  else
    match store.find? (fun e => decide (e.id = id)) with
    | some e =>
      { response := { status := 200, body := .entry (applyContent b e) },
        store := store.map (fun e => if e.id = id then applyContent b e else e) }
    | none =>
      { response := { status := 404, body := .err ("Entry not found.") },
        store := store }

/-- `DELETE /api/knowledge-base/:id`: delete the row, 404 when no row
matched, 204 otherwise. -/
def deleteHandler (id : Str) (store : List KnowledgeEntry) (dbFails : Bool) :
    HandlerOut :=
  if dbFails then
    { response := { status := 500, body := .err ("Failed to delete entry.") },
      store := store }
  else if store.any (fun e => decide (e.id = id)) then
    { response := { status := 204, body := .noContent },
      store := store.filter (fun e => !decide (e.id = id)) }
  else
    { response := { status := 404, body := .err ("Entry not found.") },
      store := store }

/-- `POST /api/knowledge-base/:id/like` in the refined revision: run the
increment `UPDATE` and answer 200 with a success object.  The affected row
count is never inspected, so an unknown id still answers 200. -/
def likeHandler (id : Str) (store : List KnowledgeEntry) (dbFails : Bool) :
    HandlerOut :=
  if dbFails then
    { response := { status := 500, body := .err ("Failed to process like.") },
      store := store }
  else
    { response := { status := 200, body := .success },
      store := store.map (fun e => if e.id = id then { e with likes := e.likes + 1 } else e) }

/-- `POST /api/knowledge-base/:id/dislike` in the refined revision: same
shape as the like endpoint, incrementing `dislikes`. -/
def dislikeHandler (id : Str) (store : List KnowledgeEntry) (dbFails : Bool) :
    HandlerOut :=
  if dbFails then
    { response := { status := 500, body := .err ("Failed to process dislike.") },
      store := store }
  else
    { response := { status := 200, body := .success },
      store := store.map (fun e => if e.id = id then { e with dislikes := e.dislikes + 1 } else e) }

/-- The outcome of the chat endpoint: the response, the ids whose `hits`
increment was scheduled as a background task (not awaited), and the log. -/
structure ChatOut where
  response : HttpResponse
  scheduledHitIds : Option (List Str)
  log : List String
deriving DecidableEq, Repr

/-- `POST /api/chat` in the refined revision.  The body's `question` must be
a non-empty string (400 otherwise); a missing API key answers 500 before any
work.  Then the context is retrieved; when non-empty, the `hits` increment
for the retrieved ids is scheduled fire-and-forget — its eventual outcome
`hitsOutcome` is only ever logged.  Finally the generative model is invoked
(`modelOutcome`); success answers 200 with the model text and the sources,
failure answers 500. -/
def chatHandler (rel : Str → Str → ℚ) (store : List KnowledgeEntry)
    (storeFails : Bool) (apiKey : Option Str) (questionVal : JsVal)
    (modelOutcome : Except String Str) (hitsOutcome : Except String Unit) :
    ChatOut :=
  match questionVal with
  | .jsStr q =>
    if q.isEmpty then
      { response := { status := 400, body := .err ("Question is required and must be a string.") },
        scheduledHitIds := none, log := [] }
    else if !truthyS apiKey then
      { response := { status := 500, body := .err ("Server is not configured with an API key.") },
        scheduledHitIds := none, log := [] }
    else
      let contextEntries := (findRelevantContext rel store storeFails q).entries
      let scheduled :=
        if contextEntries.isEmpty then none
        else some (contextEntries.map (fun e => e.id))
      let hitsLog : List String :=
        match scheduled, hitsOutcome with
        | some _, .error e => [("Failed to update hits count: ") ++ e]
        | _, _ => []
      match modelOutcome with
      | .ok answer =>
        { response := { status := 200, body := .chatAnswer answer contextEntries },
          scheduledHitIds := scheduled, log := hitsLog }
      | .error msg =>
        { response := { status := 500, body := .err ("Failed to get a response from the AI assistant.") },
          scheduledHitIds := scheduled,
          log := hitsLog ++ [("Error with Gemini API: ") ++ msg] }
  | _ =>
    { response := { status := 400, body := .err ("Question is required and must be a string.") },
      scheduledHitIds := none, log := [] }

/-! ### Lemmas about the text normalizer -/

/-- The composite of the three character replacements, in source order. -/
def replAll (c : Char) : Char := replZwnj (replKaf (replYeh c))

/-- Two adjacent characters are not both whitespace. -/
def wsR (a b : Char) : Prop := ¬(isJsSpace a = true ∧ isJsSpace b = true)

/-- The head of the list, when present, is not whitespace. -/
def headOk (l : Str) : Prop := ∀ c ∈ l.head?, isJsSpace c = false

/-- The rows the chat path retrieves on a healthy store. -/
def retrievedEntries (rel : Str → Str → ℚ) (store : List KnowledgeEntry)
    (q : Str) (n : Nat) : List KnowledgeEntry :=
  (findRelevantContext rel store false q n).entries

/-- A persisted attachment URL is either absent or a non-empty string. -/
def urlOk (u : Option Str) : Prop := u = none ∨ ∃ s, s ≠ [] ∧ u = some s

/-- A constant similarity scorer: every row ties on relevance. -/
def relOne : Str → Str → ℚ := fun _ _ => 1

/-- Sample row with net feedback 5. -/
def entryA : KnowledgeEntry :=
  { id := ("a").data, question := ("q1").data, answer := ("ans1").data,
    type := ("عمومی").data, system := ("sys").data,
    hasVideo := false, hasDocument := false, hasImage := false,
    likes := 5, dislikes := 0, hits := 0,
    videoUrl := none, documentUrl := none, imageUrl := none }

/-- Sample row with net feedback 2. -/
def entryB : KnowledgeEntry :=
  { id := ("b").data, question := ("q2").data, answer := ("ans2").data,
    type := ("عمومی").data, system := ("sys").data,
    hasVideo := false, hasDocument := false, hasImage := false,
    likes := 2, dislikes := 0, hits := 7,
    videoUrl := none, documentUrl := none, imageUrl := none }

/-- A sample store holding the two rows, deliberately out of order. -/
def storeAB : List KnowledgeEntry := [entryB, entryA]

/-- A request body whose required fields are all present and whose type is a
member of the enumeration. -/
def bodyValid : EntryBody :=
  { question := some (("how").data), answer := some (("ans").data),
    type := some (("عمومی").data), system := some (("sys").data),
    hasVideo := JsVal.jsBool true, hasDocument := JsVal.undef,
    hasImage := JsVal.jsNum 0,
    videoUrl := some (("u").data), documentUrl := some [], imageUrl := none }

/-- A request body whose required fields are all present (hence truthy) but
whose type is not a member of the enumeration. -/
def bodyInvalidType : EntryBody :=
  { question := some (("how").data), answer := some (("ans").data),
    type := some (("bogus").data), system := some (("sys").data),
    hasVideo := JsVal.jsBool true, hasDocument := JsVal.undef,
    hasImage := JsVal.jsNum 0,
    videoUrl := some [], documentUrl := none, imageUrl := some (("u").data) }

/-- A request body with a missing required field. -/
def bodyMissing : EntryBody :=
  { question := none, answer := some (("ans").data),
    type := some (("عمومی").data), system := some (("sys").data),
    hasVideo := JsVal.undef, hasDocument := JsVal.undef, hasImage := JsVal.undef,
    videoUrl := none, documentUrl := none, imageUrl := none }

theorem collapseAux_nil (b : Bool) : collapseAux b [] = [] := rfl

theorem collapseAux_cons_sp_t {d : Char} {rest : Str} (hd : isJsSpace d = true) :
    collapseAux true (d :: rest) = collapseAux true rest := by
  simp [collapseAux, hd]

theorem collapseAux_cons_sp_f {d : Char} {rest : Str} (hd : isJsSpace d = true) :
    collapseAux false (d :: rest) = ' ' :: collapseAux true rest := by
  simp [collapseAux, hd]

theorem collapseAux_cons_ns (b : Bool) {d : Char} {rest : Str}
    (hd : isJsSpace d = false) :
    collapseAux b (d :: rest) = d :: collapseAux false rest := by
  simp [collapseAux, hd]

theorem mapRepl_eq (l : Str) :
    ((l.map replYeh).map replKaf).map replZwnj = l.map replAll := by
  simp only [List.map_map]; rfl

theorem map_eq_self_of {α : Type} {f : α → α} :
    ∀ (l : List α), (∀ c ∈ l, f c = c) → l.map f = l
  | [], _ => rfl
  | a :: t, h => by
    rw [List.map_cons, h a (List.mem_cons_self _ _),
      map_eq_self_of t (fun c hc => h c (List.mem_cons_of_mem _ hc))]

theorem replAll_replAll (c : Char) : replAll (replAll c) = replAll c := by
  unfold replAll replZwnj replKaf replYeh
  split_ifs <;> simp_all

theorem replAll_space : replAll ' ' = ' ' := by decide

theorem mem_collapseAux {c : Char} :
    ∀ (l : Str) (b : Bool), c ∈ collapseAux b l → c ∈ l ∨ c = ' '
  | [], b => by simp [collapseAux_nil]
  | d :: rest, b => by
    intro h
    cases hd : isJsSpace d with
    | true =>
      cases b with
      | true =>
        rw [collapseAux_cons_sp_t hd] at h
        rcases mem_collapseAux rest true h with h | h
        · exact Or.inl (List.mem_cons_of_mem _ h)
        · exact Or.inr h
      | false =>
        rw [collapseAux_cons_sp_f hd, List.mem_cons] at h
        rcases h with h | h
        · exact Or.inr h
        · rcases mem_collapseAux rest true h with h | h
          · exact Or.inl (List.mem_cons_of_mem _ h)
          · exact Or.inr h
    | false =>
      rw [collapseAux_cons_ns b hd, List.mem_cons] at h
      rcases h with h | h
      · exact Or.inl (h ▸ List.mem_cons_self _ _)
      · rcases mem_collapseAux rest false h with h | h
        · exact Or.inl (List.mem_cons_of_mem _ h)
        · exact Or.inr h

theorem mem_jsTrim {c : Char} (l : Str) (h : c ∈ jsTrim l) : c ∈ l := by
  unfold jsTrim jsTrimRight jsTrimLeft at h
  rw [List.mem_reverse] at h
  have h1 := (List.dropWhile_sublist isJsSpace).subset h
  rw [List.mem_reverse] at h1
  exact (List.dropWhile_sublist isJsSpace).subset h1

theorem collapseAux_plain :
    ∀ (l : Str) (b : Bool), ∀ c ∈ collapseAux b l, isJsSpace c = true → c = ' '
  | [], b => by simp [collapseAux_nil]
  | d :: rest, b => by
    intro c hc hsc
    cases hd : isJsSpace d with
    | true =>
      cases b with
      | true =>
        rw [collapseAux_cons_sp_t hd] at hc
        exact collapseAux_plain rest true c hc hsc
      | false =>
        rw [collapseAux_cons_sp_f hd, List.mem_cons] at hc
        rcases hc with hc | hc
        · exact hc
        · exact collapseAux_plain rest true c hc hsc
    | false =>
      rw [collapseAux_cons_ns b hd, List.mem_cons] at hc
      rcases hc with hc | hc
      · subst hc; simp [hsc] at hd
      · exact collapseAux_plain rest false c hc hsc

theorem collapseAux_chain :
    ∀ (l : Str) (b : Bool), List.Chain' wsR (collapseAux b l) ∧
      (b = true → headOk (collapseAux b l))
  | [], b => by
    refine ⟨by simp [collapseAux_nil], ?_⟩
    intro _ c hc
    simp [collapseAux_nil] at hc
  | d :: rest, b => by
    cases hd : isJsSpace d with
    | true =>
      have ihT := collapseAux_chain rest true
      cases b with
      | true =>
        rw [collapseAux_cons_sp_t hd]
        exact ⟨ihT.1, fun _ => ihT.2 rfl⟩
      | false =>
        rw [collapseAux_cons_sp_f hd]
        refine ⟨List.chain'_cons'.mpr ⟨?_, ihT.1⟩, by simp⟩
        intro y hy
        have hyOk := ihT.2 rfl y hy
        exact fun hcon => by simp [hyOk] at hcon
    | false =>
      have ihF := collapseAux_chain rest false
      rw [collapseAux_cons_ns b hd]
      refine ⟨List.chain'_cons'.mpr ⟨?_, ihF.1⟩, ?_⟩
      · intro y hy
        exact fun hcon => by simp [hcon.1] at hd
      · intro _ c hc
        simp only [List.head?_cons, Option.mem_def, Option.some.injEq] at hc
        subst hc
        exact hd

theorem collapseAux_eq_self :
    ∀ (l : Str), (∀ c ∈ l, isJsSpace c = true → c = ' ') →
      List.Chain' wsR l →
      collapseAux false l = l ∧ (headOk l → collapseAux true l = l)
  | [], _, _ => ⟨rfl, fun _ => rfl⟩
  | d :: rest, hp, hc => by
    have hp' : ∀ c ∈ rest, isJsSpace c = true → c = ' ' :=
      fun c hcm => hp c (List.mem_cons_of_mem _ hcm)
    have ih' := collapseAux_eq_self rest hp' hc.tail
    cases hd : isJsSpace d with
    | true =>
      have hd' : d = ' ' := hp d (List.mem_cons_self _ _) hd
      have hOk : headOk rest := by
        intro y hy
        have hR := (List.chain'_cons'.mp hc).1 y hy
        by_contra hny
        exact hR ⟨hd, by simpa using hny⟩
      constructor
      · rw [collapseAux_cons_sp_f hd, ih'.2 hOk, hd']
      · intro hHead
        have hdd := hHead d (by simp)
        simp [hd] at hdd
    | false =>
      constructor
      · rw [collapseAux_cons_ns false hd, ih'.1]
      · intro _
        rw [collapseAux_cons_ns true hd, ih'.1]

theorem chain_dropWhile {R : Char → Char → Prop} (p : Char → Bool) :
    ∀ (l : Str), List.Chain' R l → List.Chain' R (l.dropWhile p)
  | [], h => h
  | d :: rest, h => by
    rw [List.dropWhile_cons]
    cases hp : p d with
    | true =>
      simp only [if_true]
      exact chain_dropWhile p rest h.tail
    | false =>
      simp only [Bool.false_eq_true, if_false]
      exact h

theorem chain_wsR_reverse (l : Str) (h : List.Chain' wsR l) :
    List.Chain' wsR l.reverse := by
  rw [List.chain'_reverse]
  exact h.imp fun {a b} hab => fun hx => hab ⟨hx.2, hx.1⟩

theorem headOk_dropWhile :
    ∀ (l : Str), headOk (l.dropWhile isJsSpace)
  | [] => by intro c hc; simp [List.dropWhile] at hc
  | d :: rest => by
    rw [List.dropWhile_cons]
    cases hd : isJsSpace d with
    | true =>
      simp only [if_true]
      exact headOk_dropWhile rest
    | false =>
      simp only [Bool.false_eq_true, if_false]
      intro c hc
      simp only [List.head?_cons, Option.mem_def, Option.some.injEq] at hc
      subst hc
      exact hd

theorem dropWhile_eq_self_of_headOk (p : Char → Bool) (l : Str)
    (h : ∀ c ∈ l.head?, p c = false) : l.dropWhile p = l := by
  cases l with
  | nil => rfl
  | cons d rest =>
    rw [List.dropWhile_cons]
    simp [h d (by simp)]

theorem headOk_of_prefix {y x : Str} (h : y <+: x) (hx : headOk x) :
    headOk y := by
  obtain ⟨t, rfl⟩ := h
  intro c hc
  cases y with
  | nil => simp at hc
  | cons d ys =>
    simp only [List.cons_append, List.head?_cons, Option.mem_def,
      Option.some.injEq] at hc
    subst hc
    exact hx _ (by simp)

theorem jsTrimRight_initial (x : Str) : jsTrimRight x <+: x := by
  unfold jsTrimRight
  have hsfx : x.reverse.dropWhile isJsSpace <:+ x.reverse :=
    List.dropWhile_suffix isJsSpace
  have := List.reverse_prefix.mpr hsfx
  simpa using this

theorem headOk_jsTrim (l : Str) : headOk (jsTrim l) := by
  unfold jsTrim
  exact headOk_of_prefix (jsTrimRight_initial _) (headOk_dropWhile l)

theorem lastOk_jsTrim (l : Str) : headOk (jsTrim l).reverse := by
  unfold jsTrim jsTrimRight
  rw [List.reverse_reverse]
  exact headOk_dropWhile _

theorem jsTrim_eq_self (l : Str) (h1 : headOk l) (h2 : headOk l.reverse) :
    jsTrim l = l := by
  unfold jsTrim jsTrimLeft jsTrimRight
  rw [dropWhile_eq_self_of_headOk _ _ h1, dropWhile_eq_self_of_headOk _ _ h2,
    List.reverse_reverse]

theorem chain_jsTrim (l : Str) (h : List.Chain' wsR l) :
    List.Chain' wsR (jsTrim l) := by
  unfold jsTrim jsTrimRight jsTrimLeft
  exact chain_wsR_reverse _ (chain_dropWhile _ _ (chain_wsR_reverse _ (chain_dropWhile _ _ h)))

/-- `postRepl` written with the fused character replacement. -/
theorem postRepl_eq (z : Str) :
    postRepl z = jsTrim (collapseWS (z.map replAll)) := by
  rw [postRepl, mapRepl_eq]

/-- The part of the normalizer after NFC is idempotent. -/
theorem postRepl_postRepl (z : Str) : postRepl (postRepl z) = postRepl z := by
  set y := postRepl z with hy
  have hyz : y = jsTrim (collapseWS ((z.map replAll))) := by
    rw [hy, postRepl_eq]
  have hyfix : ∀ c ∈ y, replAll c = c := by
    intro c hcy
    rw [hyz] at hcy
    have hcw := mem_jsTrim _ hcy
    rcases mem_collapseAux _ false hcw with hcm | hsp
    · obtain ⟨c0, _, rfl⟩ := List.mem_map.mp hcm
      exact replAll_replAll c0
    · rw [hsp]; exact replAll_space
  have hplain : ∀ c ∈ y, isJsSpace c = true → c = ' ' := by
    intro c hcy
    rw [hyz] at hcy
    exact collapseAux_plain _ false c (mem_jsTrim _ hcy)
  have hchain : List.Chain' wsR y := by
    rw [hyz]
    exact chain_jsTrim _ (collapseAux_chain (z.map replAll) false).1
  have hcollapse : collapseWS y = y :=
    (collapseAux_eq_self y hplain hchain).1
  have hhead : headOk y := by rw [hyz]; exact headOk_jsTrim _
  have hlast : headOk y.reverse := by rw [hyz]; exact lastOk_jsTrim _
  have htrim : jsTrim y = y := jsTrim_eq_self y hhead hlast
  calc postRepl y
      = jsTrim (collapseWS (y.map replAll)) := postRepl_eq y
    _ = jsTrim (collapseWS y) := by rw [map_eq_self_of y hyfix]
    _ = jsTrim y := by rw [hcollapse]
    _ = y := htrim

/-! ### Claim theorems -/

/-- C5: the text normalizer is idempotent — for every input string `x`,
`normalize(normalize(x)) = normalize(x)`.  The external Unicode NFC step is
the parameter `nfc`; the hypothesis `hfix` is the Unicode fact that a string
that has just been NFC-normalized and then passed through the replacement,
collapsing and trimming steps is still NFC-normal (the replacement
characters U+06CC, U+06A9 and the space never start a canonical
composition). -/
theorem normalizePersian_idempotent (nfc : Str → Str)
    (hfix : ∀ t, nfc (postRepl (nfc t)) = postRepl (nfc t)) (x : Option Str) :
    normalizePersian nfc (some (normalizePersian nfc x)) =
      normalizePersian nfc x := by
  cases x with
  | none => rfl
  | some t =>
    by_cases ht : t = []
    · subst ht; rfl
    · have hR : normalizePersian nfc (some t) = postRepl (nfc t) := by
        simp [normalizePersian, ht]
      rw [hR]
      by_cases hy : postRepl (nfc t) = []
      · rw [hy]; rfl
      · show normalizePersian nfc (some (postRepl (nfc t))) = postRepl (nfc t)
        simp only [normalizePersian, if_neg hy]
        rw [hfix t, postRepl_postRepl]

/-- Witness for C5 at a concrete Persian string (with spare whitespace and an
Arabic Yeh), taking the NFC step to be the identity. -/
theorem normalizePersian_idempotent_witness :
    normalizePersian id (some (normalizePersian id (some (("  سلام  دنيا ").data)))) =
      normalizePersian id (some (("  سلام  دنيا ").data)) :=
  normalizePersian_idempotent id (fun _ => rfl) (some (("  سلام  دنيا ").data))

/-- C4: for every `maxResults` (and any store health), `findRelevantContext`
on an empty or whitespace-only question returns the empty list immediately
and performs no store access. -/
theorem findRelevantContext_blank (rel : Str → Str → ℚ)
    (store : List KnowledgeEntry) (storeFails : Bool) (q : Str) (n : Nat)
    (h : ∀ c ∈ q, isJsSpace c = true) :
    findRelevantContext rel store storeFails q n =
      { entries := [], storeAccessed := false, log := [] } := by
  have h1 : jsTrimLeft q = [] := by
    unfold jsTrimLeft
    rw [List.dropWhile_eq_nil_iff]
    intro a ha
    exact h a ha
  have hq : jsTrim q = [] := by
    unfold jsTrim
    rw [h1]
    rfl
  rw [findRelevantContext, if_pos hq]

/-- Witness for C4: a three-character whitespace question. -/
theorem findRelevantContext_blank_witness :
    findRelevantContext relOne storeAB false ((" \t ").data) 3 =
      { entries := [], storeAccessed := false, log := [] } :=
  findRelevantContext_blank relOne storeAB false ((" \t ").data) 3 (by decide)

/-- C3: for every question that actually reaches the store query, a failing
query is caught inside `findRelevantContext`: the failure is logged and the
empty list is returned — the error never propagates to the caller. -/
theorem findRelevantContext_catches (rel : Str → Str → ℚ)
    (store : List KnowledgeEntry) (q : Str) (n : Nat)
    (hq : jsTrim q ≠ []) :
    findRelevantContext rel store true q n =
      { entries := [], storeAccessed := true,
        log := [("Error finding relevant context from DB:")] } := by
  rw [findRelevantContext, if_neg hq]
  rfl

/-- Witness for C3 at a concrete non-blank question. -/
theorem findRelevantContext_catches_witness :
    findRelevantContext relOne storeAB true (("سلام").data) 3 =
      { entries := [], storeAccessed := true,
        log := [("Error finding relevant context from DB:")] } :=
  findRelevantContext_catches relOne storeAB (("سلام").data) 3 (by decide)

/-- C1: for every question and store state, the list returned by
`findRelevantContext` is ordered primarily by relevance (descending), with
ties broken by net feedback `likes - dislikes` (descending) and remaining
ties by `hits` (descending): the result is sorted under `rankRel`, and
consequently among equally relevant rows net feedback never increases along
the list, and among rows tying on both keys `hits` never increases. -/
theorem findRelevantContext_ranked (rel : Str → Str → ℚ)
    (store : List KnowledgeEntry) (q : Str) (n : Nat) :
    (retrievedEntries rel store q n).Sorted (rankRel rel q) ∧
      (∀ (i j : Fin (retrievedEntries rel store q n).length), i < j →
        rel ((retrievedEntries rel store q n).get i).question q =
          rel ((retrievedEntries rel store q n).get j).question q →
        netLikes ((retrievedEntries rel store q n).get j) ≤
          netLikes ((retrievedEntries rel store q n).get i)) ∧
      (∀ (i j : Fin (retrievedEntries rel store q n).length), i < j →
        rel ((retrievedEntries rel store q n).get i).question q =
          rel ((retrievedEntries rel store q n).get j).question q →
        netLikes ((retrievedEntries rel store q n).get i) =
          netLikes ((retrievedEntries rel store q n).get j) →
        ((retrievedEntries rel store q n).get j).hits ≤
          ((retrievedEntries rel store q n).get i).hits) := by
  have hsorted : (retrievedEntries rel store q n).Sorted (rankRel rel q) := by
    rw [retrievedEntries, findRelevantContext]
    by_cases hq : jsTrim q = []
    · rw [if_pos hq]
      exact List.sorted_nil
    · rw [if_neg hq]
      simp only [Bool.false_eq_true, if_false]
      exact List.Pairwise.sublist (List.take_sublist _ _)
        (List.sorted_insertionSort _ _)
  refine ⟨hsorted, ?_, ?_⟩
  · intro i j hij heq
    have hr := hsorted.rel_get_of_lt hij
    rcases hr with hr | ⟨_, hnet⟩
    · rw [heq] at hr
      exact absurd hr (lt_irrefl _)
    · rcases hnet with hn | ⟨hn, _⟩
      · exact le_of_lt hn
      · exact le_of_eq hn
  · intro i j hij heq hneteq
    have hr := hsorted.rel_get_of_lt hij
    rcases hr with hr | ⟨_, hnet⟩
    · rw [heq] at hr
      exact absurd hr (lt_irrefl _)
    · rcases hnet with hn | ⟨_, hh⟩
      · rw [hneteq] at hn
        exact absurd hn (lt_irrefl _)
      · exact hh

/-- Witness for C1: on a store with two rows tying on relevance and with net
likes 5 and 2 (fed to the retriever in the opposite order), net feedback at
position 1 is bounded by position 0 — the net-5 row sorts first. -/
theorem findRelevantContext_ranked_witness :
    (retrievedEntries relOne storeAB (("q").data) 3).length = 2 ∧
    netLikes ((retrievedEntries relOne storeAB (("q").data) 3).get ⟨1, by decide⟩) ≤
      netLikes ((retrievedEntries relOne storeAB (("q").data) 3).get ⟨0, by decide⟩) :=
  ⟨by decide,
    (findRelevantContext_ranked relOne storeAB (("q").data) 3).2.1
      ⟨0, by decide⟩ ⟨1, by decide⟩ (by decide) (by decide)⟩

/-- C2: the hit-counter increment is fire-and-forget — for every chat
request, the eventual outcome of the scheduled `UPDATE ... SET hits = hits + 1`
(success or failure) never changes the response's status or body, nor which
ids were scheduled; a failed increment is only logged. -/
theorem chatHandler_hits_fire_and_forget (rel : Str → Str → ℚ)
    (store : List KnowledgeEntry) (storeFails : Bool) (apiKey : Option Str)
    (qv : JsVal) (mo : Except String Str) (o₁ o₂ : Except String Unit) :
    (chatHandler rel store storeFails apiKey qv mo o₁).response =
      (chatHandler rel store storeFails apiKey qv mo o₂).response ∧
    (chatHandler rel store storeFails apiKey qv mo o₁).scheduledHitIds =
      (chatHandler rel store storeFails apiKey qv mo o₂).scheduledHitIds := by
  cases qv <;> try exact ⟨rfl, rfl⟩
  case jsStr q =>
    by_cases hq : q.isEmpty = true
    · constructor <;> simp [chatHandler, hq]
    · rw [Bool.not_eq_true] at hq
      by_cases hk : truthyS apiKey = true
      · cases mo <;> constructor <;> simp [chatHandler, hq, hk]
      · rw [Bool.not_eq_true] at hk
        constructor <;> simp [chatHandler, hq, hk]

/-- C9: when the generative-model call fails on a valid chat request, the
response is the 500 error, yet the `hits` increments for the retrieved
entries were already scheduled: the scheduled ids are exactly the retrieved
ids (when any were retrieved) and coincide with what a successful model call
would have scheduled — the increment is issued before the model call, so the
error response is not atomic with respect to store state. -/
theorem chatHandler_error_after_scheduling (rel : Str → Str → ℚ)
    (store : List KnowledgeEntry) (storeFails : Bool) (apiKey : Option Str)
    (q : Str) (m : String) (t : Str) (o : Except String Unit)
    (hq : q.isEmpty = false) (hk : truthyS apiKey = true) :
    (chatHandler rel store storeFails apiKey (JsVal.jsStr q) (Except.error m) o).response.status
        = 500 ∧
    (chatHandler rel store storeFails apiKey (JsVal.jsStr q) (Except.error m) o).scheduledHitIds
        = (chatHandler rel store storeFails apiKey (JsVal.jsStr q) (Except.ok t) o).scheduledHitIds ∧
    ((findRelevantContext rel store storeFails q).entries ≠ [] →
      (chatHandler rel store storeFails apiKey (JsVal.jsStr q) (Except.error m) o).scheduledHitIds
        = some (((findRelevantContext rel store storeFails q).entries).map (fun e => e.id))) := by
  refine ⟨?_, ?_, ?_⟩
  · simp [chatHandler, hq, hk]
  · simp [chatHandler, hq, hk]
  · intro hne
    have hemp : ((findRelevantContext rel store storeFails q).entries).isEmpty = false := by
      cases hent : (findRelevantContext rel store storeFails q).entries with
      | nil => exact absurd hent hne
      | cons a l => rfl
    simp [chatHandler, hq, hk, hemp]

/-- Witness for C9: on the two-row store with a constant scorer and a failing
model call, the response is 500 and both row ids were scheduled for the hit
increment (net-5 row first). -/
theorem chatHandler_error_after_scheduling_witness :
    (chatHandler relOne storeAB false (some (("k").data)) (JsVal.jsStr (("q").data))
        (Except.error "boom") (Except.ok ())).response.status = 500 ∧
    (chatHandler relOne storeAB false (some (("k").data)) (JsVal.jsStr (("q").data))
        (Except.error "boom") (Except.ok ())).scheduledHitIds
      = some [("a").data, ("b").data] := by
  have h := chatHandler_error_after_scheduling relOne storeAB false
    (some (("k").data)) (("q").data) "boom" (("hi").data) (Except.ok ())
    (by decide) (by decide)
  refine ⟨h.1, ?_⟩
  rw [h.2.2 (by decide)]
  decide

/-- C6 counterexample: a create request whose `type` is a non-empty string
that is not a member of the enumeration is *not* rejected with 400 — the
validation only checks truthiness of the four required fields, so the create
succeeds with 201. -/
theorem createHandler_invalid_type_not_rejected :
    ((("bogus").data) ∉ knowledgeEntryTypes) ∧
    bodyInvalidType.type = some (("bogus").data) ∧
    (createHandler 0 [] bodyInvalidType false).response.status = 201 ∧
    (createHandler 0 [] bodyInvalidType false).response.status ≠ 400 := by
  refine ⟨by decide, rfl, by decide, by decide⟩

/-- C6 amended: the create endpoint rejects with 400 exactly when one of
`question`, `answer`, `type`, `system` is missing or empty (the enumeration
membership of `type` is not validated); on success the server generates the
identifier `kb-<timestamp>` and the created entry has
`likes = dislikes = hits = 0`. -/
theorem createHandler_spec (now : Nat) (store : List KnowledgeEntry)
    (b : EntryBody) :
    (requiredOk b = false →
      (createHandler now store b false).response.status = 400 ∧
      (createHandler now store b false).store = store) ∧
    (requiredOk b = true →
      (createHandler now store b false).response.status = 201 ∧
      ∃ e, (createHandler now store b false).response.body = RespBody.entry e ∧
        e.id = kbId now ∧ e.likes = 0 ∧ e.dislikes = 0 ∧ e.hits = 0 ∧
        (createHandler now store b false).store = store ++ [e]) := by
  constructor
  · intro h
    constructor <;> simp [createHandler, h]
  · intro h
    refine ⟨by simp [createHandler, h], ?_⟩
    refine ⟨newEntry now b, ?_, rfl, rfl, rfl, rfl, ?_⟩ <;>
      simp [createHandler, h]

/-- Witness for the amended C6: the valid body is accepted with 201 and zero
counters; the body with a missing question is rejected with 400. -/
theorem createHandler_spec_witness :
    ((createHandler 42 [] bodyValid false).response.status = 201 ∧
      ∃ e, (createHandler 42 [] bodyValid false).response.body = RespBody.entry e ∧
        e.id = kbId 42 ∧ e.likes = 0 ∧ e.dislikes = 0 ∧ e.hits = 0 ∧
        (createHandler 42 [] bodyValid false).store = [] ++ [e]) ∧
    (createHandler 7 [] bodyMissing false).response.status = 400 :=
  ⟨(createHandler_spec 42 [] bodyValid).2 (by decide),
    ((createHandler_spec 7 [] bodyMissing).1 (by decide)).1⟩

/-- C7 counterexample: on an empty store (so the id matches no row), the
like and dislike endpoints answer 200 with the success object — not 404.
The refined revision never inspects the affected row count on the feedback
endpoints, unlike update and delete. -/
theorem likeHandler_unknown_id_not_404 :
    (∀ e ∈ ([] : List KnowledgeEntry), ¬e.id = ("nope").data) ∧
    (likeHandler (("nope").data) [] false).response.status = 200 ∧
    (likeHandler (("nope").data) [] false).response.status ≠ 404 ∧
    (dislikeHandler (("nope").data) [] false).response.status = 200 ∧
    (dislikeHandler (("nope").data) [] false).response.status ≠ 404 := by
  refine ⟨by simp, by decide, by decide, by decide, by decide⟩

/-- C7 amended: for an id not present in the store, the like and dislike
endpoints answer 200 with the success object and leave the store unchanged —
they do not mirror the not-found behaviour of update and delete, which
answer 404 for the same id. -/
theorem feedback_unknown_id (id : Str) (store : List KnowledgeEntry)
    (h : ∀ e ∈ store, ¬e.id = id) :
    (likeHandler id store false).response =
        { status := 200, body := RespBody.success } ∧
    (likeHandler id store false).store = store ∧
    (dislikeHandler id store false).response =
        { status := 200, body := RespBody.success } ∧
    (dislikeHandler id store false).store = store ∧
    (deleteHandler id store false).response.status = 404 ∧
    (∀ b : EntryBody, requiredOk b = true →
      (updateHandler id store b false).response.status = 404) := by
  have hmapL :
      store.map (fun e => if e.id = id then { e with likes := e.likes + 1 } else e)
        = store := by
    rw [map_eq_self_of]
    intro e he
    rw [if_neg (h e he)]
  have hmapD :
      store.map (fun e => if e.id = id then { e with dislikes := e.dislikes + 1 } else e)
        = store := by
    rw [map_eq_self_of]
    intro e he
    rw [if_neg (h e he)]
  have hany : store.any (fun e => decide (e.id = id)) = false := by
    rw [List.any_eq_false]
    intro e he
    simpa using h e he
  have hfind : store.find? (fun e => decide (e.id = id)) = none := by
    rw [List.find?_eq_none]
    intro e he
    simpa using h e he
  refine ⟨?_, ?_, ?_, ?_, ?_, ?_⟩
  · simp [likeHandler]
  · simp [likeHandler, hmapL]
  · simp [dislikeHandler]
  · simp [dislikeHandler, hmapD]
  · simp [deleteHandler, hany]
  · intro b hb
    simp [updateHandler, hb, hfind]

/-- Witness for the amended C7 on a concrete unknown id over the two-row
store. -/
theorem feedback_unknown_id_witness :
    (likeHandler (("zz").data) storeAB false).response =
        { status := 200, body := RespBody.success } ∧
    (likeHandler (("zz").data) storeAB false).store = storeAB ∧
    (deleteHandler (("zz").data) storeAB false).response.status = 404 ∧
    (updateHandler (("zz").data) storeAB bodyValid false).response.status = 404 := by
  have h := feedback_unknown_id (("zz").data) storeAB (by decide)
  exact ⟨h.1, h.2.1, h.2.2.2.2.1, h.2.2.2.2.2 bodyValid (by decide)⟩

/-- C8: for every valid update request, the update statement rewrites exactly
the rows matching the id through `applyContent`, which replaces only the
content fields (question, answer, type, system, attachment flags and URLs)
and leaves `likes`, `dislikes`, `hits` (and the id) of the row unchanged;
rows with other ids are untouched, and an existing matching row is answered
with 200 and its updated version. -/
theorem updateHandler_frame (id : Str) (store : List KnowledgeEntry)
    (b : EntryBody) (hreq : requiredOk b = true) :
    (updateHandler id store b false).store =
      store.map (fun e => if e.id = id then applyContent b e else e) ∧
    (∀ e : KnowledgeEntry,
      (applyContent b e).likes = e.likes ∧
      (applyContent b e).dislikes = e.dislikes ∧
      (applyContent b e).hits = e.hits ∧
      (applyContent b e).id = e.id ∧
      (applyContent b e).question = (b.question).getD [] ∧
      (applyContent b e).answer = (b.answer).getD [] ∧
      (applyContent b e).type = (b.type).getD [] ∧
      (applyContent b e).system = (b.system).getD []) ∧
    (∀ e, store.find? (fun e => decide (e.id = id)) = some e →
      (updateHandler id store b false).response =
        { status := 200, body := RespBody.entry (applyContent b e) }) := by
  refine ⟨?_, ?_, ?_⟩
  · rw [updateHandler]
    simp only [hreq, Bool.not_true, Bool.false_eq_true, if_false]
    cases hfind : store.find? (fun e => decide (e.id = id)) with
    | some e => rfl
    | none =>
      rw [List.find?_eq_none] at hfind
      simp only []
      rw [map_eq_self_of]
      intro e he
      rw [if_neg (by simpa using hfind e he)]
  · intro e
    exact ⟨rfl, rfl, rfl, rfl, rfl, rfl, rfl, rfl⟩
  · intro e hfind
    rw [updateHandler]
    simp only [hreq, Bool.not_true, Bool.false_eq_true, if_false, hfind]

/-- Witness for C8: updating the id of the net-5 row over the two-row store
preserves its counters while replacing its content. -/
theorem updateHandler_frame_witness :
    (applyContent bodyValid entryA).likes = entryA.likes ∧
    (applyContent bodyValid entryA).hits = entryA.hits ∧
    (updateHandler (("a").data) storeAB bodyValid false).store =
      storeAB.map (fun e => if e.id = ("a").data then applyContent bodyValid e else e) := by
  have h := updateHandler_frame (("a").data) storeAB bodyValid (by decide)
  exact ⟨(h.2.1 entryA).1, (h.2.1 entryA).2.2.1, h.1⟩

/-- C10: every row written through create or update carries strict booleans
for the attachment flags (the JavaScript truthiness of the request value, as
forced by the `!!` coercion), and every falsy attachment URL (absent or
empty) is stored as `NULL`, so a persisted URL is always either absent or a
non-empty string. -/
theorem attachment_fields_normalized (now : Nat) (store : List KnowledgeEntry)
    (b : EntryBody) (e : KnowledgeEntry) (hreq : requiredOk b = true) :
    ((createHandler now store b false).store = store ++ [newEntry now b] ∧
      (newEntry now b).hasVideo = truthy b.hasVideo ∧
      (newEntry now b).hasDocument = truthy b.hasDocument ∧
      (newEntry now b).hasImage = truthy b.hasImage ∧
      urlOk (newEntry now b).videoUrl ∧
      urlOk (newEntry now b).documentUrl ∧
      urlOk (newEntry now b).imageUrl) ∧
    ((applyContent b e).hasVideo = truthy b.hasVideo ∧
      (applyContent b e).hasDocument = truthy b.hasDocument ∧
      (applyContent b e).hasImage = truthy b.hasImage ∧
      urlOk (applyContent b e).videoUrl ∧
      urlOk (applyContent b e).documentUrl ∧
      urlOk (applyContent b e).imageUrl) := by
  have horn : ∀ v : Option Str, urlOk (orNull v) := by
    intro v
    cases v with
    | none => exact Or.inl rfl
    | some s =>
      by_cases hs : s.isEmpty = true
      · exact Or.inl (by simp [orNull, hs])
      · refine Or.inr ⟨s, ?_, by simp [orNull, hs]⟩
        intro hnil
        rw [hnil] at hs
        exact hs rfl
  refine ⟨⟨?_, rfl, rfl, rfl, horn _, horn _, horn _⟩,
    rfl, rfl, rfl, horn _, horn _, horn _⟩
  simp [createHandler, hreq]

/-- Witness for C10 on the valid body (whose `videoUrl` is non-empty,
`documentUrl` is the empty string, and `imageUrl` is absent). -/
theorem attachment_fields_normalized_witness :
    (newEntry 5 bodyValid).hasVideo = truthy bodyValid.hasVideo ∧
    urlOk (newEntry 5 bodyValid).documentUrl ∧
    urlOk (applyContent bodyValid entryB).imageUrl := by
  have h := attachment_fields_normalized 5 [] bodyValid entryB (by decide)
  exact ⟨h.1.2.1, h.1.2.2.2.2.2.1, h.2.2.2.2.2.2⟩
